import Mathlib

/-!
Verification of the per-project payroll (FOT) ETL pipeline in
`fot_analysis_dag.py`.

The pipeline's steps are embedded as pure Lean functions:

* `transform_data` — the Transformer (`transform_data` in the source): two
  pandas left merges, a per-row `payment` column, and a `groupby('project_id')`
  aggregation summing `hours_worked` and `payment`.
* `load_to_database` — the Loader: empty-input check, create-if-absent,
  `DELETE FROM project_fot`, bulk append with SQLite AUTOINCREMENT ids,
  commit.
* `generate_report` — the Report Generator: read-back sorted by
  `total_payment` descending, text report and CSV rendering.
* `send_email_with_attachments` — the Notifier: HTML composition, existence
  check on the two attachment files, primary send, degraded fallback.

Numbers are modelled as rationals (the Python values involved are exact
decimals); pandas nulls (`NaN`) are modelled as `Option`.
-/

/-- A row of `employees.csv` (columns `employee_id`, `position`). -/
structure Employee where
  employee_id : Int
  position : String
deriving Repr, DecidableEq

/-- A row of `rates.json` (fields `position`, `rate_per_hour`). -/
structure Rate where
  position : String
  rate_per_hour : ℚ
deriving Repr, DecidableEq

/-- A row of `projects.xlsx` (columns `project_id`, `employee_id`,
`hours_worked`). -/
structure Assignment where
  project_id : Int
  employee_id : Int
  hours_worked : ℚ
deriving Repr, DecidableEq

/-- A row of the merged dataframe after both left merges: the columns used
downstream, with `position` and `rate_per_hour` nullable (left-join misses
produce `NaN`). -/
structure MergedRow where
  project_id : Int
  employee_id : Int
  hours_worked : ℚ
  position : Option String
  rate_per_hour : Option ℚ
deriving Repr, DecidableEq

/-- The merged rows one assignment row produces under
`pd.merge(projects_df, employees_df, on='employee_id', how='left')`: the row
is repeated once per matching employee, or kept once with a null `position`
when no employee matches. -/
def employeeBranch (employees : List Employee) (a : Assignment) :
    List MergedRow :=
  let ms := employees.filter fun e => e.employee_id == a.employee_id
  if ms.isEmpty then
    [⟨a.project_id, a.employee_id, a.hours_worked, none, none⟩]
  else
    ms.map fun e =>
      ⟨a.project_id, a.employee_id, a.hours_worked, some e.position, none⟩

/-- `pd.merge(projects_df, employees_df, on='employee_id', how='left')`. -/
def mergeEmployees (projects : List Assignment) (employees : List Employee) :
    List MergedRow :=
  projects.flatMap (employeeBranch employees)

/-- The rows one merged row produces under
`pd.merge(merged_df, rates_df, on='position', how='left')`: a row whose
`position` is null matches nothing (NaN joins nothing); otherwise the row is
repeated once per matching rate, or kept with a null rate. -/
def rateBranch (rates : List Rate) (r : MergedRow) : List MergedRow :=
  match r.position with
  | none => [{ r with rate_per_hour := none }]
  | some pos =>
    let ms := rates.filter fun rt => rt.position == pos
    if ms.isEmpty then
      [{ r with rate_per_hour := none }]
    else
      ms.map fun rt => { r with rate_per_hour := some rt.rate_per_hour }

/-- `pd.merge(merged_df, rates_df, on='position', how='left')`. -/
def mergeRates (rows : List MergedRow) (rates : List Rate) : List MergedRow :=
  rows.flatMap (rateBranch rates)

/-- `merged_df['payment'] = merged_df['hours_worked'] * merged_df['rate_per_hour']`:
null (NaN) propagates when the rate is null. -/
def rowPayment (r : MergedRow) : Option ℚ :=
  r.rate_per_hour.map fun rate => r.hours_worked * rate

/-- The whole merged dataframe of `transform_data` before aggregation. -/
def mergedAll (employees : List Employee) (rates : List Rate)
    (projects : List Assignment) : List MergedRow :=
  mergeRates (mergeEmployees projects employees) rates

/-- The distinct group keys of `groupby('project_id')`, in ascending order
(pandas sorts group keys by default). -/
def projectKeys (rows : List MergedRow) : List Int :=
  List.insertionSort (· ≤ ·) ((rows.map fun r => r.project_id).dedup)

/-- A row of the aggregated dataframe `fot_df`. -/
structure FotRow where
  project_id : Int
  total_hours : ℚ
  total_payment : ℚ
deriving Repr, DecidableEq

/-- `total_hours=('hours_worked', 'sum')` restricted to one group. -/
def sumHours (rows : List MergedRow) (p : Int) : ℚ :=
  (((rows.filter fun r => r.project_id == p).map fun r => r.hours_worked)).sum

/-- `total_payment=('payment', 'sum')` restricted to one group: pandas `sum`
skips nulls, and a group of only nulls sums to 0. -/
def sumPayment (rows : List MergedRow) (p : Int) : ℚ :=
  ((rows.filter fun r => r.project_id == p).filterMap rowPayment).sum

/-- The Transformer `transform_data`: both left merges, the `payment`
column, and the `groupby('project_id').agg(...).reset_index()`. -/
def transform_data (employees : List Employee) (rates : List Rate)
    (projects : List Assignment) : List FotRow :=
  let merged := mergedAll employees rates projects
  (projectKeys merged).map fun p => ⟨p, sumHours merged p, sumPayment merged p⟩

/-- The position of the unique employee with a given id, if any
(`find?` models a lookup in a roster whose `employee_id` is unique). -/
def lookupPosition (employees : List Employee) (eid : Int) : Option String :=
  (employees.find? fun e => e.employee_id == eid).map fun e => e.position

/-- The hourly rate of a position, if any. -/
def lookupRate (rates : List Rate) (pos : String) : Option ℚ :=
  (rates.find? fun rt => rt.position == pos).map fun rt => rt.rate_per_hour

/-- The payment an assignment contributes per the spec sentence:
`hours_worked × rate_per_hour` of the assignment's employee's position, and
0 when the employee or the position has no match. -/
def specContribution (employees : List Employee) (rates : List Rate)
    (a : Assignment) : ℚ :=
  match lookupPosition employees a.employee_id with
  | none => 0
  | some pos =>
    match lookupRate rates pos with
    | none => 0
    | some rate => a.hours_worked * rate

/-- The merged row an assignment produces when roster ids and rate positions
are unique. -/
def mergedRowOf (employees : List Employee) (rates : List Rate)
    (a : Assignment) : MergedRow :=
  let pos := lookupPosition employees a.employee_id
  { project_id := a.project_id
    employee_id := a.employee_id
    hours_worked := a.hours_worked
    position := pos
    rate_per_hour := pos.bind fun s => lookupRate rates s }

/-- `total_hours` reported for a project by an aggregated output (0 when the
project is absent). -/
def totalHoursOf (fot : List FotRow) (p : Int) : ℚ :=
  (((fot.filter fun r => r.project_id == p).map fun r => r.total_hours)).sum

/-- `total_payment` reported for a project by an aggregated output (0 when
the project is absent). -/
def totalPaymentOf (fot : List FotRow) (p : Int) : ℚ :=
  (((fot.filter fun r => r.project_id == p).map fun r => r.total_payment)).sum

/-- The scenario roster: employees `[{1, "developer"}, {2, "qa"}]`. -/
def scenarioEmployees : List Employee :=
  [⟨1, "developer"⟩, ⟨2, "qa"⟩]

/-- The scenario rate card: `[{"developer": 50}, {"qa": 30}]`. -/
def scenarioRates : List Rate :=
  [⟨"developer", 50⟩, ⟨"qa", 30⟩]

/-- The scenario assignments `[{p1, e1, 10}, {p2, e2, 5}, {p3, e1, 8}]`
with `p1 = 1, p2 = 2, p3 = 3`. -/
def scenarioAssignments : List Assignment :=
  [⟨1, 1, 10⟩, ⟨2, 2, 5⟩, ⟨3, 1, 8⟩]

/-- The Transformer step including its failure path. The three record lists
pulled from xcom are rebuilt with `pd.DataFrame(...)`; a dataframe rebuilt
from an empty records list has no columns at all, so
`pd.merge(..., on='employee_id')` raises a KeyError when the assignments or
the roster are empty, and `pd.merge(..., on='position')` raises when the
rate list is empty. On non-empty inputs the merges and the aggregation
proceed as `transform_data`. -/
def transform_data_run (employees : List Employee) (rates : List Rate)
    (projects : List Assignment) : Except String (List FotRow) :=
  if projects.isEmpty || employees.isEmpty then
    .error "KeyError: employee_id"
  else if rates.isEmpty then
    .error "KeyError: position"
  else
    .ok (transform_data employees rates projects)

-- ### helper lemmas

theorem filter_eq_find_of_nodup {α β : Type} [BEq β] [LawfulBEq β] (key : α → β)
    (l : List α) (k : β) (h : (l.map key).Nodup) :
    l.filter (fun e => key e == k) =
      (l.find? fun e => key e == k).toList := by
  induction l with
  | nil => rfl
  | cons x xs ih =>
    simp only [List.map_cons, List.nodup_cons] at h
    by_cases hx : key x = k
    · have hxs : xs.filter (fun e => key e == k) = [] := by
        apply List.filter_eq_nil_iff.2
        intro e he
        simp only [beq_iff_eq]
        intro hek
        have hmem : key x ∈ List.map key xs := by
          rw [hx, ← hek]
          exact List.mem_map_of_mem key he
        exact h.1 hmem
      simp [List.filter_cons, List.find?_cons, hx, hxs]
    · have := ih h.2
      simp [List.filter_cons, List.find?_cons, hx, this]

theorem filter_int_beq_of_nodup (l : List Int) (p : Int) (h : l.Nodup) :
    l.filter (fun x => x == p) = if p ∈ l then [p] else [] := by
  induction l with
  | nil => rfl
  | cons x xs ih =>
    simp only [List.nodup_cons] at h
    have ihx := ih h.2
    by_cases hx : x = p
    · subst hx
      have hxs : xs.filter (fun y => y == x) = [] := by
        apply List.filter_eq_nil_iff.2
        intro y hy hyx
        rw [beq_iff_eq] at hyx
        exact h.1 (hyx ▸ hy)
      rw [List.filter_cons_of_pos (by simp), hxs,
        if_pos (List.mem_cons_self x xs)]
    · rw [List.filter_cons_of_neg (by simp [hx]), ihx]
      by_cases hp : p ∈ xs
      · rw [if_pos hp, if_pos (List.mem_cons_of_mem x hp)]
      · have hnp : p ∉ x :: xs := by
          simp only [List.mem_cons]
          rintro (hq | hq)
          · exact hx hq.symm
          · exact hp hq
        rw [if_neg hp, if_neg hnp]

theorem sum_filterMap_eq_sum_map_getD {α : Type} (g : α → Option ℚ)
    (l : List α) : (l.filterMap g).sum = (l.map fun a => (g a).getD 0).sum := by
  induction l with
  | nil => rfl
  | cons x xs ih =>
    cases hx : g x <;> simp [List.filterMap_cons, hx, ih]

theorem filter_employees_eq_find (employees : List Employee) (k : Int)
    (h : (employees.map fun e => e.employee_id).Nodup) :
    employees.filter (fun e => e.employee_id == k) =
      (employees.find? fun e => e.employee_id == k).toList :=
  filter_eq_find_of_nodup (fun e => e.employee_id) employees k h

theorem filter_rates_eq_find (rates : List Rate) (k : String)
    (h : (rates.map fun rt => rt.position).Nodup) :
    rates.filter (fun rt => rt.position == k) =
      (rates.find? fun rt => rt.position == k).toList :=
  filter_eq_find_of_nodup (fun rt => rt.position) rates k h

theorem mergeEmployees_eq_map {employees : List Employee}
    (projects : List Assignment)
    (h : (employees.map fun e => e.employee_id).Nodup) :
    mergeEmployees projects employees = projects.map fun a =>
      ⟨a.project_id, a.employee_id, a.hours_worked,
        lookupPosition employees a.employee_id, none⟩ := by
  induction projects with
  | nil => rfl
  | cons a ps ih =>
    have hstep : mergeEmployees (a :: ps) employees =
        employeeBranch employees a ++ mergeEmployees ps employees := rfl
    rw [hstep, ih, List.map_cons]
    have hf := filter_employees_eq_find employees a.employee_id h
    cases hfind : employees.find? fun e => e.employee_id == a.employee_id with
    | none => simp [employeeBranch, hf, hfind, lookupPosition, Option.toList]
    | some e => simp [employeeBranch, hf, hfind, lookupPosition, Option.toList]

theorem mergeRates_eq_map {rates : List Rate} (rows : List MergedRow)
    (h : (rates.map fun rt => rt.position).Nodup) :
    mergeRates rows rates = rows.map fun r =>
      { r with rate_per_hour := r.position.bind fun pos => lookupRate rates pos } := by
  induction rows with
  | nil => rfl
  | cons r rs ih =>
    have hstep : mergeRates (r :: rs) rates =
        rateBranch rates r ++ mergeRates rs rates := rfl
    rw [hstep, ih, List.map_cons]
    cases hpos : r.position with
    | none => simp [rateBranch, hpos]
    | some pos =>
      have hf := filter_rates_eq_find rates pos h
      cases hfind : rates.find? fun rt => rt.position == pos with
      | none => simp [rateBranch, hf, hfind, lookupRate, Option.toList, hpos]
      | some rt => simp [rateBranch, hf, hfind, lookupRate, Option.toList, hpos]

theorem mergedAll_eq_map {employees : List Employee} {rates : List Rate}
    (projects : List Assignment)
    (hE : (employees.map fun e => e.employee_id).Nodup)
    (hR : (rates.map fun rt => rt.position).Nodup) :
    mergedAll employees rates projects =
      projects.map (mergedRowOf employees rates) := by
  unfold mergedAll
  rw [mergeEmployees_eq_map projects hE, mergeRates_eq_map _ hR,
    List.map_map]
  rfl

theorem sumHours_map_mergedRowOf (employees : List Employee) (rates : List Rate)
    (projects : List Assignment) (p : Int) :
    sumHours (projects.map (mergedRowOf employees rates)) p =
      (((projects.filter fun a => a.project_id == p).map
        fun a => a.hours_worked)).sum := by
  unfold sumHours
  rw [List.filter_map, List.map_map]
  rfl

theorem rowPayment_mergedRowOf (employees : List Employee) (rates : List Rate)
    (a : Assignment) :
    (rowPayment (mergedRowOf employees rates a)).getD 0 =
      specContribution employees rates a := by
  unfold rowPayment mergedRowOf specContribution
  cases hpos : lookupPosition employees a.employee_id with
  | none => rfl
  | some pos =>
    cases hr : lookupRate rates pos with
    | none => simp [hpos, hr]
    | some rate => simp [hpos, hr]

theorem sumPayment_map_mergedRowOf (employees : List Employee)
    (rates : List Rate) (projects : List Assignment) (p : Int) :
    sumPayment (projects.map (mergedRowOf employees rates)) p =
      (((projects.filter fun a => a.project_id == p)).map
        (specContribution employees rates)).sum := by
  unfold sumPayment
  rw [List.filter_map]
  have h1 : (List.filter ((fun r => r.project_id == p) ∘
      mergedRowOf employees rates) projects) =
      projects.filter fun a => a.project_id == p := rfl
  rw [h1, List.filterMap_map, sum_filterMap_eq_sum_map_getD]
  apply congrArg
  apply List.map_congr_left
  intro a _
  exact rowPayment_mergedRowOf employees rates a

theorem employeeBranch_ne_nil (employees : List Employee) (a : Assignment) :
    employeeBranch employees a ≠ [] := by
  unfold employeeBranch
  dsimp only
  split
  · simp
  · rename_i hms
    intro hnil
    rw [List.map_eq_nil_iff] at hnil
    simp [hnil] at hms

theorem project_id_of_mem_employeeBranch {employees : List Employee}
    {a : Assignment} {r : MergedRow} (h : r ∈ employeeBranch employees a) :
    r.project_id = a.project_id := by
  unfold employeeBranch at h
  dsimp only at h
  split at h
  · rw [List.mem_singleton] at h
    subst h; rfl
  · rw [List.mem_map] at h
    obtain ⟨e, _, he⟩ := h
    subst he; rfl

theorem rateBranch_ne_nil (rates : List Rate) (r : MergedRow) :
    rateBranch rates r ≠ [] := by
  unfold rateBranch
  split
  · simp
  · dsimp only
    split
    · simp
    · rename_i hms
      intro hnil
      rw [List.map_eq_nil_iff] at hnil
      simp [hnil] at hms

theorem project_id_of_mem_rateBranch {rates : List Rate}
    {r s : MergedRow} (h : s ∈ rateBranch rates r) :
    s.project_id = r.project_id := by
  unfold rateBranch at h
  split at h
  · rw [List.mem_singleton] at h
    subst h; rfl
  · dsimp only at h
    split at h
    · rw [List.mem_singleton] at h
      subst h; rfl
    · rw [List.mem_map] at h
      obtain ⟨rt, _, hrt⟩ := h
      subst hrt; rfl

theorem mem_proj_flatMap {α β : Type} (g : α → List β) (pa : α → Int)
    (pb : β → Int) (l : List α) (hne : ∀ a, g a ≠ [])
    (hpr : ∀ a, ∀ b ∈ g a, pb b = pa a) (p : Int) :
    p ∈ (l.flatMap g).map pb ↔ p ∈ l.map pa := by
  simp only [List.mem_map, List.mem_flatMap]
  constructor
  · rintro ⟨b, ⟨a, haL, hb⟩, hbp⟩
    exact ⟨a, haL, by rw [← hbp, hpr a b hb]⟩
  · rintro ⟨a, haL, hap⟩
    obtain ⟨b, hb⟩ := List.exists_mem_of_ne_nil (g a) (hne a)
    exact ⟨b, ⟨a, haL, hb⟩, by rw [hpr a b hb, hap]⟩

theorem mem_proj_mergedAll (employees : List Employee) (rates : List Rate)
    (projects : List Assignment) (p : Int) :
    p ∈ (mergedAll employees rates projects).map (fun r => r.project_id) ↔
      p ∈ projects.map fun a => a.project_id := by
  unfold mergedAll mergeRates mergeEmployees
  rw [mem_proj_flatMap (rateBranch rates) (fun r => r.project_id)
    (fun r => r.project_id) _ (rateBranch_ne_nil rates)
    (fun r s hs => project_id_of_mem_rateBranch hs)]
  exact mem_proj_flatMap (employeeBranch employees) (fun a => a.project_id)
    (fun r => r.project_id) projects (employeeBranch_ne_nil employees)
    (fun a r hr => project_id_of_mem_employeeBranch hr) p

theorem projectKeys_nodup (rows : List MergedRow) : (projectKeys rows).Nodup :=
  (List.nodup_dedup _).perm
    (List.perm_insertionSort (· ≤ ·) _).symm

theorem mem_projectKeys (rows : List MergedRow) (p : Int) :
    p ∈ projectKeys rows ↔ p ∈ rows.map fun r => r.project_id := by
  unfold projectKeys
  rw [(List.perm_insertionSort (· ≤ ·) _).mem_iff]
  exact List.mem_dedup

theorem transform_data_filter (employees : List Employee) (rates : List Rate)
    (projects : List Assignment) (p : Int) :
    (transform_data employees rates projects).filter
        (fun r => r.project_id == p) =
      if p ∈ projectKeys (mergedAll employees rates projects) then
        [⟨p, sumHours (mergedAll employees rates projects) p,
          sumPayment (mergedAll employees rates projects) p⟩]
      else ([] : List FotRow) := by
  unfold transform_data
  rw [List.filter_map]
  have h1 : (List.filter ((fun r : FotRow => r.project_id == p) ∘
      fun q => (⟨q, sumHours (mergedAll employees rates projects) q,
        sumPayment (mergedAll employees rates projects) q⟩ : FotRow))
      (projectKeys (mergedAll employees rates projects))) =
      (projectKeys (mergedAll employees rates projects)).filter
        (fun q => q == p) := rfl
  rw [h1, filter_int_beq_of_nodup _ p (projectKeys_nodup _)]
  split
  · rfl
  · rfl

theorem filter_proj_eq_nil_of_not_mem {rows : List MergedRow} {p : Int}
    (h : p ∉ rows.map fun r => r.project_id) :
    rows.filter (fun r => r.project_id == p) = [] := by
  apply List.filter_eq_nil_iff.2
  intro r hr hrp
  rw [beq_iff_eq] at hrp
  exact h (List.mem_map.2 ⟨r, hr, hrp⟩)

theorem totalHoursOf_transform (employees : List Employee) (rates : List Rate)
    (projects : List Assignment) (p : Int) :
    totalHoursOf (transform_data employees rates projects) p =
      sumHours (mergedAll employees rates projects) p := by
  unfold totalHoursOf
  rw [transform_data_filter]
  split
  · simp
  · rename_i hmem
    rw [(mem_projectKeys _ p).not] at hmem
    simp [sumHours, filter_proj_eq_nil_of_not_mem hmem]

theorem totalPaymentOf_transform (employees : List Employee)
    (rates : List Rate) (projects : List Assignment) (p : Int) :
    totalPaymentOf (transform_data employees rates projects) p =
      sumPayment (mergedAll employees rates projects) p := by
  unfold totalPaymentOf
  rw [transform_data_filter]
  split
  · simp
  · rename_i hmem
    rw [(mem_projectKeys _ p).not] at hmem
    simp [sumPayment, filter_proj_eq_nil_of_not_mem hmem]

theorem sumHours_append (m m' : List MergedRow) (p : Int) :
    sumHours (m ++ m') p = sumHours m p + sumHours m' p := by
  simp [sumHours, List.filter_append]

theorem sumPayment_append (m m' : List MergedRow) (p : Int) :
    sumPayment (m ++ m') p = sumPayment m p + sumPayment m' p := by
  simp [sumPayment, List.filter_append]

theorem mergedAll_append (employees : List Employee) (rates : List Rate)
    (projects projects' : List Assignment) :
    mergedAll employees rates (projects ++ projects') =
      mergedAll employees rates projects ++
        mergedAll employees rates projects' := by
  simp [mergedAll, mergeEmployees, mergeRates, List.flatMap_append]

theorem mergedAll_unmatched_singleton {employees : List Employee}
    (rates : List Rate) {a : Assignment}
    (h : a.employee_id ∉ employees.map fun e => e.employee_id) :
    mergedAll employees rates [a] =
      [⟨a.project_id, a.employee_id, a.hours_worked, none, none⟩] := by
  have hfil : employees.filter (fun e => e.employee_id == a.employee_id) = [] := by
    apply List.filter_eq_nil_iff.2
    intro e he heq
    rw [beq_iff_eq] at heq
    exact h (List.mem_map.2 ⟨e, he, heq⟩)
  simp [mergedAll, mergeEmployees, mergeRates, employeeBranch, rateBranch, hfil]

-- ### the claims

/-- C1: for all non-empty employee, rate and assignment inputs (with the data
model's uniqueness of roster `employee_id` and rate-card `position`), the
Transformer's `total_payment` for each output row equals the sum over that
project's assignments of `hours_worked × rate_per_hour` looked up through the
assignment's employee's position, an unmatched employee or position
contributing 0; and the concrete scenario evaluates to
`[{1, 10, 500.0}, {2, 5, 150.0}, {3, 8, 400.0}]`. -/
theorem claim_C1 :
    (∀ (employees : List Employee) (rates : List Rate)
        (projects : List Assignment),
        employees ≠ [] → rates ≠ [] → projects ≠ [] →
        (employees.map fun e => e.employee_id).Nodup →
        (rates.map fun rt => rt.position).Nodup →
        ∀ row ∈ transform_data employees rates projects,
          row.total_payment =
            ((projects.filter fun a => a.project_id == row.project_id).map
              (specContribution employees rates)).sum) ∧
    transform_data scenarioEmployees scenarioRates scenarioAssignments =
      [⟨1, 10, 500⟩, ⟨2, 5, 150⟩, ⟨3, 8, 400⟩] := by
  constructor
  · intro employees rates projects _ _ _ hnE hnR row hrow
    simp only [transform_data] at hrow
    rw [List.mem_map] at hrow
    obtain ⟨p, _, hrow⟩ := hrow
    subst hrow
    show sumPayment (mergedAll employees rates projects) p =
      ((projects.filter fun a => a.project_id == p).map
        (specContribution employees rates)).sum
    rw [mergedAll_eq_map projects hnE hnR, sumPayment_map_mergedRowOf]
  · norm_num +decide [transform_data, mergedAll, mergeEmployees, mergeRates,
      employeeBranch, rateBranch, projectKeys, sumHours, sumPayment,
      rowPayment, scenarioEmployees, scenarioRates, scenarioAssignments,
      List.insertionSort, List.orderedInsert,
      List.filter_cons, List.filter_nil, List.flatMap_cons, List.flatMap_nil,
      List.filterMap_cons, List.filterMap_nil, beq_iff_eq,
      List.dedup_cons_of_mem, List.dedup_cons_of_not_mem]

/-- Witness for C1 at the scenario inputs and its first output row. -/
theorem claim_C1_witness :
    (⟨1, 10, 500⟩ : FotRow).total_payment =
      ((scenarioAssignments.filter fun a =>
          a.project_id == (⟨1, 10, 500⟩ : FotRow).project_id).map
        (specContribution scenarioEmployees scenarioRates)).sum :=
  claim_C1.1 scenarioEmployees scenarioRates scenarioAssignments
    (by decide) (by decide) (by decide) (by decide) (by decide)
    ⟨1, 10, 500⟩ (by rw [claim_C1.2]; exact List.mem_cons_self _ _)

theorem transform_count_project_id (employees : List Employee)
    (rates : List Rate) (projects : List Assignment) :
    ∀ p : Int,
      ((transform_data employees rates projects).map
          fun r => r.project_id).count p =
        if p ∈ projects.map (fun a => a.project_id) then 1 else 0 := by
  intro p
  have hmap : (transform_data employees rates projects).map
      (fun r => r.project_id) =
      projectKeys (mergedAll employees rates projects) := by
    simp only [transform_data, List.map_map]
    exact List.map_id _
  rw [hmap]
  by_cases hp : p ∈ projects.map fun a => a.project_id
  · rw [if_pos hp]
    exact List.count_eq_one_of_mem (projectKeys_nodup _)
      ((mem_projectKeys _ p).2 ((mem_proj_mergedAll _ _ _ p).2 hp))
  · rw [if_neg hp]
    apply List.count_eq_zero_of_not_mem
    intro hmem
    exact hp ((mem_proj_mergedAll _ _ _ p).1 ((mem_projectKeys _ p).1 hmem))

/-- Counterexample to C2 as stated: with the non-empty scenario assignments
but an empty roster, the rebuilt employees dataframe has no `employee_id`
column, so the Transformer raises at the first merge and produces no
aggregated output — project 1 does not appear exactly once in any output. -/
theorem claim_C2_counterexample :
    transform_data_run [] scenarioRates scenarioAssignments =
      .error "KeyError: employee_id" := rfl

/-- C2 (amended): for every non-empty employees, rates and assignments
input the Transformer completes, and each distinct `project_id` present in
the assignments appears exactly once among the output's project ids (and an
absent id appears zero times), even when every row's joins fail to match;
an empty input list instead raises at the merge. -/
theorem claim_C2 :
    ∀ (employees : List Employee) (rates : List Rate)
      (projects : List Assignment),
      employees ≠ [] → rates ≠ [] → projects ≠ [] →
      ∃ fot, transform_data_run employees rates projects = .ok fot ∧
        ∀ p : Int, (fot.map fun r => r.project_id).count p =
          if p ∈ projects.map (fun a => a.project_id) then 1 else 0 := by
  intro employees rates projects hE hR hP
  have h1 : (projects.isEmpty || employees.isEmpty) = false := by
    cases projects with
    | nil => exact absurd rfl hP
    | cons a ps =>
      cases employees with
      | nil => exact absurd rfl hE
      | cons e es => rfl
  have h2 : rates.isEmpty = false := by
    cases rates with
    | nil => exact absurd rfl hR
    | cons rt rts => rfl
  refine ⟨transform_data employees rates projects, ?_, ?_⟩
  · simp [transform_data_run, h1, h2]
  · exact transform_count_project_id employees rates projects

/-- Witness for C2 at inputs where both left joins fail to match for every
assignment row. -/
theorem claim_C2_witness :
    ∃ fot, transform_data_run [⟨100, "intern"⟩] [⟨"manager", 80⟩]
        scenarioAssignments = .ok fot ∧
      ∀ p : Int, (fot.map fun r => r.project_id).count p =
        if p ∈ scenarioAssignments.map (fun a => a.project_id) then 1
        else 0 :=
  claim_C2 [⟨100, "intern"⟩] [⟨"manager", 80⟩] scenarioAssignments
    (by decide) (by decide) (by decide)

theorem transform_unmatched_append (employees : List Employee)
    (rates : List Rate) (projects : List Assignment) (a : Assignment)
    (h : a.employee_id ∉ employees.map fun e => e.employee_id) :
    totalHoursOf (transform_data employees rates (projects ++ [a]))
        a.project_id =
      totalHoursOf (transform_data employees rates projects) a.project_id
        + a.hours_worked ∧
    totalPaymentOf (transform_data employees rates (projects ++ [a]))
        a.project_id =
      totalPaymentOf (transform_data employees rates projects)
        a.project_id := by
  constructor
  · rw [totalHoursOf_transform, totalHoursOf_transform, mergedAll_append,
      mergedAll_unmatched_singleton rates h, sumHours_append]
    simp [sumHours]
  · rw [totalPaymentOf_transform, totalPaymentOf_transform, mergedAll_append,
      mergedAll_unmatched_singleton rates h, sumPayment_append]
    simp [sumPayment, rowPayment]

/-- Counterexample to C3 as stated: with an empty roster every
`employee_id` is vacuously absent from it, yet the Transformer raises a
KeyError at the first merge instead of counting the added assignment's
hours. -/
theorem claim_C3_counterexample :
    transform_data_run [] scenarioRates
        (scenarioAssignments ++ [⟨4, 99, 7⟩]) =
      .error "KeyError: employee_id" := rfl

/-- C3 (amended): with a non-empty roster, rate list and base assignments
the Transformer completes on both the base and the extended input, and an
added assignment whose `employee_id` is absent from the roster still adds
its `hours_worked` to its project's `total_hours` while adding nothing to
that project's `total_payment` (its null payment is skipped, not poisoning
the group); an empty roster or rate list instead raises at the merge. -/
theorem claim_C3 :
    ∀ (employees : List Employee) (rates : List Rate)
      (projects : List Assignment) (a : Assignment),
      employees ≠ [] → rates ≠ [] → projects ≠ [] →
      a.employee_id ∉ employees.map (fun e => e.employee_id) →
      ∃ fotBase fotExt,
        transform_data_run employees rates projects = .ok fotBase ∧
        transform_data_run employees rates (projects ++ [a]) = .ok fotExt ∧
        totalHoursOf fotExt a.project_id =
          totalHoursOf fotBase a.project_id + a.hours_worked ∧
        totalPaymentOf fotExt a.project_id =
          totalPaymentOf fotBase a.project_id := by
  intro employees rates projects a hE hR hP habs
  have h1 : (projects.isEmpty || employees.isEmpty) = false := by
    cases projects with
    | nil => exact absurd rfl hP
    | cons p ps =>
      cases employees with
      | nil => exact absurd rfl hE
      | cons e es => rfl
  have h1x : ((projects ++ [a]).isEmpty || employees.isEmpty) = false := by
    cases projects with
    | nil => exact absurd rfl hP
    | cons p ps =>
      cases employees with
      | nil => exact absurd rfl hE
      | cons e es => rfl
  have h2 : rates.isEmpty = false := by
    cases rates with
    | nil => exact absurd rfl hR
    | cons rt rts => rfl
  refine ⟨transform_data employees rates projects,
    transform_data employees rates (projects ++ [a]), ?_, ?_, ?_⟩
  · simp [transform_data_run, h1, h2]
  · simp [transform_data_run, h1x, h2]
  · exact transform_unmatched_append employees rates projects a habs

/-- Witness for C3: assignment `{4, 99, 7}` whose employee 99 is not in the
scenario roster. -/
theorem claim_C3_witness :
    ∃ fotBase fotExt,
      transform_data_run scenarioEmployees scenarioRates scenarioAssignments
        = .ok fotBase ∧
      transform_data_run scenarioEmployees scenarioRates
        (scenarioAssignments ++ [⟨4, 99, 7⟩]) = .ok fotExt ∧
      totalHoursOf fotExt 4 = totalHoursOf fotBase 4 + 7 ∧
      totalPaymentOf fotExt 4 = totalPaymentOf fotBase 4 :=
  claim_C3 scenarioEmployees scenarioRates scenarioAssignments ⟨4, 99, 7⟩
    (by decide) (by decide) (by decide) (by decide)

/-- A persisted row of the `project_fot` table, per the Loader's
`CREATE TABLE` statement: `id INTEGER PRIMARY KEY AUTOINCREMENT`,
`project_id INTEGER NOT NULL`, `total_hours REAL NOT NULL`,
`total_payment REAL NOT NULL`, `analysis_date TIMESTAMP DEFAULT
CURRENT_TIMESTAMP` (the timestamp is modelled as a `Nat`). -/
structure DBRow where
  id : Nat
  project_id : Int
  total_hours : ℚ
  total_payment : ℚ
  analysis_date : Nat
deriving Repr, DecidableEq

/-- The `project_fot` table together with its AUTOINCREMENT sequence.
With the `AUTOINCREMENT` keyword SQLite keeps the largest id ever issued in
`sqlite_sequence` and never reuses one, even after `DELETE FROM`; `nextId`
is the next id that will be issued. -/
structure Table where
  nextId : Nat
  rows : List DBRow
deriving Repr, DecidableEq

/-- `CREATE TABLE IF NOT EXISTS project_fot (...)`: a fresh table starts its
id sequence at 1; an existing table is left untouched. -/
def createTableIfNotExists : Option Table → Table
  | none => ⟨1, []⟩
  | some t => t

/-- One row `INSERT` performed by `df.to_sql('project_fot', conn,
if_exists='append', index=False)`: the row receives the next AUTOINCREMENT
id and the insertion-time timestamp (`analysis_date` default). -/
def insertFotRow (now : Nat) (t : Table) (r : FotRow) : Table :=
  ⟨t.nextId + 1,
    t.rows ++ [⟨t.nextId, r.project_id, r.total_hours, r.total_payment, now⟩]⟩

/-- The table contents after the Loader's delete-then-insert on a database
state `db`: all prior rows removed, the dataframe rows appended in order. -/
def fullReplace (db : Option Table) (rows : List FotRow) (now : Nat) : Table :=
  rows.foldl (insertFotRow now) ⟨(createTableIfNotExists db).nextId, []⟩

/-- The Loader `load_to_database`: pulls `fot_stats`; `if not fot_stats:`
raises `ValueError` (both for an absent and for an empty list) before the
database is touched; otherwise it creates the table if absent, runs
`DELETE FROM project_fot`, appends the dataframe rows and commits. The
result pairs the database state after the step with the step's outcome. -/
def load_to_database (fot_stats : Option (List FotRow)) (db : Option Table)
    (now : Nat) : Option Table × Except String Unit :=
  match fot_stats with
  | none => (db, .error "Нет данных для загрузки")
  | some rows =>
    if rows.isEmpty then
      (db, .error "Нет данных для загрузки")
    else
      (some (fullReplace db rows now), .ok ())

/-- The rows inserted by the Loader's bulk append, starting at id `n`. -/
def insertedRows (n now : Nat) : List FotRow → List DBRow
  | [] => []
  | r :: rs =>
    ⟨n, r.project_id, r.total_hours, r.total_payment, now⟩ ::
      insertedRows (n + 1) now rs

/-- The data columns of a persisted row, without the surrogate `id` and the
insertion timestamp. -/
def rowPayload (r : DBRow) : Int × ℚ × ℚ :=
  (r.project_id, r.total_hours, r.total_payment)

/-- The rows of a database state (empty when the table does not exist). -/
def tableRows : Option Table → List DBRow
  | none => []
  | some t => t.rows

theorem foldl_insertFotRow (now : Nat) (rows : List FotRow) :
    ∀ (n : Nat) (acc : List DBRow),
      rows.foldl (insertFotRow now) ⟨n, acc⟩ =
        ⟨n + rows.length, acc ++ insertedRows n now rows⟩ := by
  induction rows with
  | nil => intro n acc; simp [insertedRows]
  | cons r rs ih =>
    intro n acc
    rw [List.foldl_cons]
    show rs.foldl (insertFotRow now) ⟨n + 1, _⟩ = _
    rw [ih (n + 1)]
    simp only [insertedRows, List.length_cons, List.cons_append,
      List.nil_append, Table.mk.injEq]
    constructor
    · omega
    · simp

theorem insertedRows_map_payload (now : Nat) (rows : List FotRow) :
    ∀ n : Nat, (insertedRows n now rows).map rowPayload =
      rows.map fun r => (r.project_id, r.total_hours, r.total_payment) := by
  induction rows with
  | nil => intro n; rfl
  | cons r rs ih => intro n; simp [insertedRows, rowPayload, ih (n + 1)]

theorem insertedRows_length (now : Nat) (rows : List FotRow) :
    ∀ n : Nat, (insertedRows n now rows).length = rows.length := by
  induction rows with
  | nil => intro n; rfl
  | cons r rs ih => intro n; simp [insertedRows, ih (n + 1)]

theorem id_bounds_of_mem_insertedRows (now : Nat) (rows : List FotRow) :
    ∀ (n : Nat), ∀ d ∈ insertedRows n now rows,
      n ≤ d.id ∧ d.id < n + rows.length := by
  induction rows with
  | nil => intro n d hd; simp [insertedRows] at hd
  | cons r rs ih =>
    intro n d hd
    simp only [insertedRows, List.mem_cons] at hd
    rcases hd with hd | hd
    · subst hd
      simp
    · have := ih (n + 1) d hd
      simp only [List.length_cons]
      omega

theorem fullReplace_eq (db : Option Table) (rows : List FotRow) (now : Nat) :
    fullReplace db rows now =
      ⟨(createTableIfNotExists db).nextId + rows.length,
        insertedRows (createTableIfNotExists db).nextId now rows⟩ := by
  unfold fullReplace
  rw [foldl_insertFotRow]
  simp

/-- C4: the Loader errors (with the database untouched) exactly when the
pulled aggregate is absent or empty, and for every non-empty aggregate it
proceeds to replace the table's contents and reports success. -/
theorem claim_C4 :
    ∀ (fot : Option (List FotRow)) (db : Option Table) (now : Nat),
      (((load_to_database fot db now).2 =
          .error "Нет данных для загрузки") ↔ (fot = none ∨ fot = some [])) ∧
      ((fot = none ∨ fot = some []) →
        (load_to_database fot db now).1 = db) ∧
      (∀ rows, fot = some rows → rows ≠ [] →
        load_to_database fot db now =
          (some (fullReplace db rows now), .ok ())) := by
  intro fot db now
  match fot with
  | none => simp [load_to_database]
  | some [] => simp [load_to_database]
  | some (r :: rs) =>
    refine ⟨by simp [load_to_database], by simp, ?_⟩
    intro rows hrows _
    rw [Option.some.injEq] at hrows
    subst hrows
    simp [load_to_database]

/-- Witness for C4: a singleton aggregate is loaded successfully. -/
theorem claim_C4_witness :
    load_to_database (some [⟨1, 10, 500⟩]) none 0 =
      (some (fullReplace none [⟨1, 10, 500⟩] 0), .ok ()) :=
  (claim_C4 (some [⟨1, 10, 500⟩]) none 0).2.2 [⟨1, 10, 500⟩] rfl (by simp)

/-- Counterexample to C5 as stated: loading the same singleton aggregate
twice does not leave the very same persisted rows as loading it once — the
AUTOINCREMENT id of the surviving row is 2 after two runs but 1 after one
run, because `DELETE FROM` does not reset the AUTOINCREMENT sequence. -/
theorem claim_C5_counterexample :
    tableRows (load_to_database (some [⟨1, 10, 500⟩])
        (load_to_database (some [⟨1, 10, 500⟩]) none 0).1 0).1 ≠
      tableRows (load_to_database (some [⟨1, 10, 500⟩]) none 0).1 := by
  simp [load_to_database, fullReplace_eq, createTableIfNotExists,
    insertedRows, tableRows]

/-- C5 (amended): running the Loader twice with the same non-empty aggregate
leaves the persisted table with the same row count and the same
`project_id`, `total_hours`, `total_payment` values, in the same order, as a
single run; only the surrogate `id` (and the insertion timestamp) can
differ. -/
theorem claim_C5 :
    ∀ (rows : List FotRow) (db : Option Table) (t1 t2 : Nat),
      rows ≠ [] →
      (tableRows (load_to_database (some rows)
          (load_to_database (some rows) db t1).1 t2).1).length =
        (tableRows (load_to_database (some rows) db t1).1).length ∧
      (tableRows (load_to_database (some rows)
          (load_to_database (some rows) db t1).1 t2).1).map rowPayload =
        (tableRows (load_to_database (some rows) db t1).1).map rowPayload := by
  intro rows db t1 t2 hne
  have hE : rows.isEmpty = false := by
    cases rows with
    | nil => exact absurd rfl hne
    | cons r rs => rfl
  simp [load_to_database, hE, tableRows, fullReplace_eq,
    insertedRows_length, insertedRows_map_payload]

/-- Witness for C5 at a singleton aggregate. -/
theorem claim_C5_witness :
    (tableRows (load_to_database (some [⟨1, 10, 500⟩])
        (load_to_database (some [⟨1, 10, 500⟩]) none 0).1 0).1).length =
      (tableRows (load_to_database (some [⟨1, 10, 500⟩]) none 0).1).length ∧
    (tableRows (load_to_database (some [⟨1, 10, 500⟩])
        (load_to_database (some [⟨1, 10, 500⟩]) none 0).1 0).1).map
        rowPayload =
      (tableRows (load_to_database (some [⟨1, 10, 500⟩]) none 0).1).map
        rowPayload :=
  claim_C5 [⟨1, 10, 500⟩] none 0 0 (by simp)

/-- C9: across two consecutive successful Loader runs every id of the first
run's table is strictly smaller than every id of the second run's table
(AUTOINCREMENT ids are never reused even though every run deletes all rows
first), and with identical input the two runs' rows agree on `project_id`,
`total_hours` and `total_payment`. -/
theorem claim_C9 :
    ∀ (rows : List FotRow) (db : Option Table) (t1 t2 : Nat),
      rows ≠ [] →
      (∀ r1 ∈ tableRows (load_to_database (some rows) db t1).1,
        ∀ r2 ∈ tableRows (load_to_database (some rows)
            (load_to_database (some rows) db t1).1 t2).1,
          r1.id < r2.id) ∧
      (tableRows (load_to_database (some rows)
          (load_to_database (some rows) db t1).1 t2).1).map rowPayload =
        (tableRows (load_to_database (some rows) db t1).1).map rowPayload := by
  intro rows db t1 t2 hne
  have hE : rows.isEmpty = false := by
    cases rows with
    | nil => exact absurd rfl hne
    | cons r rs => rfl
  constructor
  · intro r1 h1 r2 h2
    simp only [load_to_database, hE, Bool.false_eq_true, if_false,
      tableRows, fullReplace_eq, createTableIfNotExists] at h1 h2
    have b1 := id_bounds_of_mem_insertedRows t1 rows _ r1 h1
    have b2 := id_bounds_of_mem_insertedRows t2 rows _ r2 h2
    omega
  · simp [load_to_database, hE, tableRows, fullReplace_eq,
      insertedRows_map_payload]

/-- Witness for C9 at a singleton aggregate. -/
theorem claim_C9_witness :
    (∀ r1 ∈ tableRows (load_to_database (some [⟨1, 10, 500⟩]) none 0).1,
      ∀ r2 ∈ tableRows (load_to_database (some [⟨1, 10, 500⟩])
          (load_to_database (some [⟨1, 10, 500⟩]) none 0).1 1).1,
        r1.id < r2.id) ∧
    (tableRows (load_to_database (some [⟨1, 10, 500⟩])
        (load_to_database (some [⟨1, 10, 500⟩]) none 0).1 1).1).map
        rowPayload =
      (tableRows (load_to_database (some [⟨1, 10, 500⟩]) none 0).1).map
        rowPayload :=
  claim_C9 [⟨1, 10, 500⟩] none 0 1 (by simp)

/-- One SQL operation the Loader issues on its SQLite connection. -/
inductive SqlOp where
  | createIfAbsent : SqlOp
  | deleteAll : SqlOp
  | insertRow : FotRow → SqlOp
  | commit : SqlOp
deriving Repr, DecidableEq

/-- A SQLite connection in the middle of the Loader step: `committed` is the
state any other reader of the database file observes; `pending` is the
connection's in-transaction view. Python's sqlite3 opens an implicit
transaction at the first data-modifying statement and publishes the changes
only at commit. -/
structure Conn where
  committed : Option Table
  pending : Option Table
deriving Repr, DecidableEq

/-- Effect of one SQL operation on the connection. -/
def execOp (now : Nat) (c : Conn) : SqlOp → Conn
  | .createIfAbsent =>
    { c with pending := some (createTableIfNotExists c.pending) }
  | .deleteAll =>
    { c with pending := c.pending.map fun t => ⟨t.nextId, []⟩ }
  | .insertRow r =>
    { c with pending := c.pending.map fun t => insertFotRow now t r }
  | .commit => { c with committed := c.pending }

/-- Running a sequence of SQL operations on a connection. -/
def execOps (now : Nat) (c : Conn) (ops : List SqlOp) : Conn :=
  ops.foldl (execOp now) c

/-- The SQL statements the Loader runs for a non-empty aggregate, in source
order: `CREATE TABLE IF NOT EXISTS`, `DELETE FROM project_fot`, one `INSERT`
per dataframe row (`df.to_sql(..., if_exists='append')`), the commit that
pandas issues at the end of `to_sql`, and the trailing `conn.commit()`. -/
def loaderOps (rows : List FotRow) : List SqlOp :=
  [.createIfAbsent, .deleteAll] ++ rows.map .insertRow ++ [.commit, .commit]

theorem execOps_append (now : Nat) (c : Conn) (ops ops' : List SqlOp) :
    execOps now c (ops ++ ops') = execOps now (execOps now c ops) ops' := by
  simp [execOps, List.foldl_append]

theorem committed_execOps_of_no_commit (now : Nat) (ops : List SqlOp)
    (hc : SqlOp.commit ∉ ops) :
    ∀ c : Conn, (execOps now c ops).committed = c.committed := by
  induction ops with
  | nil => intro c; rfl
  | cons op ops ih =>
    intro c
    simp only [List.mem_cons, not_or] at hc
    rw [show execOps now c (op :: ops) = execOps now (execOp now c op) ops
      from rfl, ih hc.2]
    cases op with
    | createIfAbsent => rfl
    | deleteAll => rfl
    | insertRow r => rfl
    | commit => exact absurd rfl hc.1

theorem pending_execOps_inserts (now : Nat) (rows : List FotRow) :
    ∀ c : Conn, execOps now c (rows.map .insertRow) =
      { c with pending := c.pending.map fun t =>
          rows.foldl (insertFotRow now) t } := by
  induction rows with
  | nil =>
    intro c
    cases c with
    | mk comm pend => cases pend <;> rfl
  | cons r rs ih =>
    intro c
    rw [List.map_cons, show execOps now c (SqlOp.insertRow r :: rs.map .insertRow)
      = execOps now (execOp now c (.insertRow r)) (rs.map .insertRow) from rfl,
      ih]
    cases hp : c.pending with
    | none => simp [execOp, hp]
    | some t => simp [execOp, hp]

theorem no_commit_in_head_ops (rows : List FotRow) :
    SqlOp.commit ∉
      [SqlOp.createIfAbsent, SqlOp.deleteAll] ++ rows.map .insertRow := by
  intro h
  rcases List.mem_append.1 h with h | h
  · simp at h
  · rcases List.mem_map.1 h with ⟨r, _, hr⟩
    exact SqlOp.noConfusion hr

theorem execOps_head_ops (now : Nat) (rows : List FotRow) (db : Option Table) :
    execOps now ⟨db, db⟩
        ([SqlOp.createIfAbsent, SqlOp.deleteAll] ++ rows.map .insertRow) =
      ⟨db, some (fullReplace db rows now)⟩ := by
  have h1 : execOps now ⟨db, db⟩ [SqlOp.createIfAbsent, SqlOp.deleteAll] =
      ⟨db, some ⟨(createTableIfNotExists db).nextId, []⟩⟩ := by
    cases db <;> simp [execOps, execOp, createTableIfNotExists]
  rw [show ([SqlOp.createIfAbsent, SqlOp.deleteAll] ++ rows.map .insertRow : List SqlOp)
      = [SqlOp.createIfAbsent, SqlOp.deleteAll] ++ rows.map .insertRow from rfl,
    execOps_append, h1, pending_execOps_inserts]
  simp [fullReplace]

/-- C6: the Loader's delete-all and bulk-insert are published atomically: at
every interruption point `k` of its SQL operation sequence, the committed
(observable) database is either the prior contents or the fully replaced
table — never a half-deleted or half-inserted state; before the first commit
it is exactly the prior contents, and after the full sequence it is exactly
the replaced table. -/
theorem claim_C6 :
    ∀ (rows : List FotRow) (db : Option Table) (now k : Nat),
      ((execOps now ⟨db, db⟩ ((loaderOps rows).take k)).committed = db ∨
        (execOps now ⟨db, db⟩ ((loaderOps rows).take k)).committed =
          some (fullReplace db rows now)) ∧
      (k ≤ 2 + rows.length →
        (execOps now ⟨db, db⟩ ((loaderOps rows).take k)).committed = db) ∧
      (execOps now ⟨db, db⟩ (loaderOps rows)).committed =
        some (fullReplace db rows now) := by
  intro rows db now k
  have hlenA : ([SqlOp.createIfAbsent, SqlOp.deleteAll] ++
      rows.map SqlOp.insertRow).length = 2 + rows.length := by
    simp [List.length_append]
    omega
  have hfull : (execOps now ⟨db, db⟩ (loaderOps rows)).committed =
      some (fullReplace db rows now) := by
    unfold loaderOps
    rw [execOps_append, execOps_head_ops]
    rfl
  by_cases hk : k ≤ 2 + rows.length
  · have hdb : (execOps now ⟨db, db⟩ ((loaderOps rows).take k)).committed =
        db := by
      unfold loaderOps
      rw [List.take_append_of_le_length (by rw [hlenA]; exact hk)]
      apply committed_execOps_of_no_commit
      intro hmem
      exact no_commit_in_head_ops rows (List.take_subset k _ hmem)
    exact ⟨Or.inl hdb, fun _ => hdb, hfull⟩
  · push_neg at hk
    have htake : (loaderOps rows).take k =
        ([SqlOp.createIfAbsent, SqlOp.deleteAll] ++ rows.map SqlOp.insertRow)
          ++ ([SqlOp.commit, SqlOp.commit]).take (k - (2 + rows.length)) := by
      unfold loaderOps
      rw [List.take_append_eq_append_take,
        List.take_of_length_le (by rw [hlenA]; omega), hlenA]
    have hcom : ∀ T : Table, (execOps now ⟨db, some T⟩
        (([SqlOp.commit, SqlOp.commit]).take
          (k - (2 + rows.length)))).committed = some T := by
      intro T
      rcases Nat.lt_or_ge (k - (2 + rows.length)) 2 with h2 | h2
      · have h1 : k - (2 + rows.length) = 1 := by omega
        rw [h1]
        rfl
      · rw [List.take_of_length_le (by simpa using h2)]
        rfl
    have hrep : (execOps now ⟨db, db⟩ ((loaderOps rows).take k)).committed =
        some (fullReplace db rows now) := by
      rw [htake, execOps_append, execOps_head_ops]
      exact hcom _
    exact ⟨Or.inr hrep, fun hle => absurd hle (by omega), hfull⟩

/-- Witness for C6: interrupting after one operation (the CREATE) leaves a
fresh database unchanged (still absent). -/
theorem claim_C6_witness :
    (execOps 0 ⟨none, none⟩
        ((loaderOps [⟨1, 10, 500⟩]).take 1)).committed = none :=
  (claim_C6 [⟨1, 10, 500⟩] none 0 1).2.1 (by omega)

/-- Two-decimal fixed-point rendering of a value, modelling the f-string
format `:.2f` applied to the REAL column (ties of the exact rational are
rounded by `round`). -/
def formatRat2 (q : ℚ) : String :=
  let c : Int := round (q * 100)
  let sign := if c < 0 then "-" else ""
  let n := c.natAbs
  sign ++ toString (n / 100) ++ "." ++
    (if n % 100 < 10 then "0" else "") ++ toString (n % 100)

/-- Rendering of a REAL value by `str()` / dataframe printing, modelling
Python float representation of the exact rational (integral values print
with a trailing `.0`). -/
def showNumber (q : ℚ) : String :=
  if q.den = 1 then toString q.num ++ ".0" else toString q

/-- The read-back ordering of `generate_report`:
`SELECT * FROM project_fot ORDER BY total_payment DESC`. -/
def sortByPaymentDesc (rows : List DBRow) : List DBRow :=
  List.insertionSort (fun a b => b.total_payment ≤ a.total_payment) rows

/-- The header of the text report: title, separator, analysis timestamp and
project count, as laid out by the f-string in `generate_report`. -/
def reportHeader (ts : String) (n : Nat) : String :=
  "\nОТЧЕТ ПО ФОНДУ ОПЛАТЫ ТРУДА ПО ПРОЕКТАМ\n" ++
    String.mk (List.replicate 52 (Char.ofNat 61)) ++ "\n" ++
    "Дата анализа: " ++ ts ++ "\n" ++
    "Всего проектов: " ++ toString n ++ "\n\n"

/-- One per-project block of the text report: project id, total hours, and
the payment formatted to two decimals. -/
def reportBlock (r : DBRow) : String :=
  "\nПроект " ++ toString r.project_id ++ ":\n" ++
    "- общие Часы: " ++ showNumber r.total_hours ++ "\n" ++
    "- общий ФОТ: " ++ formatRat2 r.total_payment ++ "\n"

/-- The header line of `df.to_csv(index=False)`: the `project_fot` columns
in schema order. -/
def csvHeader : String :=
  "id,project_id,total_hours,total_payment,analysis_date\n"

/-- One CSV line of `df.to_csv(index=False)`. -/
def csvLine (r : DBRow) : String :=
  toString r.id ++ "," ++ toString r.project_id ++ "," ++
    showNumber r.total_hours ++ "," ++ showNumber r.total_payment ++ "," ++
    toString r.analysis_date ++ "\n"

/-- Concatenation of the rendered pieces of a row list. -/
def concatMap (f : DBRow → String) : List DBRow → String
  | [] => ""
  | r :: rs => f r ++ concatMap f rs

/-- What `generate_report` produces: the text report, the CSV contents, and
the row set staged for the Notifier (`result_data`). -/
structure Report where
  text : String
  csv : String
  result_data : List DBRow
deriving Repr, DecidableEq

/-- The Report Generator `generate_report`: reads the whole table back
sorted by `total_payment` descending (raising when the table does not
exist), renders the text report by appending one block per row to the
header, writes the CSV, and stages the rows. -/
def generate_report (db : Option Table) (ts : String) :
    Except String Report :=
  match db with
  | none => .error "no such table: project_fot"
  | some t =>
    let rows := sortByPaymentDesc t.rows
    let text := rows.foldl (fun acc r => acc ++ reportBlock r)
      (reportHeader ts rows.length)
    let csv := rows.foldl (fun acc r => acc ++ csvLine r) csvHeader
    .ok ⟨text, csv, rows⟩

theorem foldl_append_concatMap (f : DBRow → String) (rows : List DBRow) :
    ∀ init : String,
      rows.foldl (fun acc r => acc ++ f r) init = init ++ concatMap f rows := by
  induction rows with
  | nil => intro init; exact (String.append_empty init).symm
  | cons r rs ih =>
    intro init
    rw [List.foldl_cons, ih, concatMap, String.append_assoc]

theorem length_sortByPaymentDesc (rows : List DBRow) :
    (sortByPaymentDesc rows).length = rows.length :=
  (List.perm_insertionSort _ rows).length_eq

/-- C7: with zero rows in the table the Report Generator completes without
raising, producing the header (count 0) with an empty body and a
header-only CSV; in general the text report is the header followed by one
block per row — project id, total hours, payment to two decimals — in
`total_payment`-descending order, and the CSV mirrors the same rows. -/
theorem claim_C7 :
    ∀ (t : Table) (ts : String),
      (t.rows = [] →
        generate_report (some t) ts =
          .ok ⟨reportHeader ts 0, csvHeader, []⟩) ∧
      (∀ rep, generate_report (some t) ts = .ok rep →
        rep.text = reportHeader ts t.rows.length ++
          concatMap reportBlock (sortByPaymentDesc t.rows) ∧
        rep.csv = csvHeader ++ concatMap csvLine (sortByPaymentDesc t.rows)) := by
  intro t ts
  constructor
  · intro h
    simp [generate_report, h, sortByPaymentDesc, List.insertionSort]
  · intro rep hrep
    simp only [generate_report, Except.ok.injEq] at hrep
    subst hrep
    refine ⟨?_, ?_⟩
    · show (sortByPaymentDesc t.rows).foldl (fun acc r => acc ++ reportBlock r)
        (reportHeader ts (sortByPaymentDesc t.rows).length) = _
      rw [foldl_append_concatMap, length_sortByPaymentDesc]
    · show (sortByPaymentDesc t.rows).foldl (fun acc r => acc ++ csvLine r)
        csvHeader = _
      rw [foldl_append_concatMap]

/-- Witness for C7: an existing but empty table yields the empty-body report
and the header-only CSV without raising. -/
theorem claim_C7_witness :
    generate_report (some ⟨1, []⟩) "2025-01-01 00:00:00" =
      .ok ⟨reportHeader "2025-01-01 00:00:00" 0, csvHeader, []⟩ :=
  (claim_C7 ⟨1, []⟩ "2025-01-01 00:00:00").1 rfl

/-- Fixed path of the text report attachment. -/
def reportFilePath : String := "/opt/airflow/project_fot_report.txt"

/-- Fixed path of the CSV attachment. -/
def csvFilePath : String := "/opt/airflow/project_fot_data.csv"

/-- The fixed recipient list of both emails. -/
def recipients : List String := ["test@example.com"]

/-- Subject of the normal success email. -/
def successSubject : String := "📈 ФОТ по проектам — отчет"

/-- Subject of the degraded fallback email. -/
def fallbackSubject : String :=
  "⚠️ Анализ ФОТ по проектам - Завершен (без файлов)"

/-- An email handed to `airflow.utils.email.send_email`. -/
structure Email where
  toAddrs : List String
  subject : String
  html_content : String
  files : List String
deriving Repr, DecidableEq

/-- One row of the HTML results table in the success email body. -/
def htmlRow (r : DBRow) : String :=
  "<tr><td>" ++ toString r.project_id ++ "</td><td>" ++
    showNumber r.total_hours ++ "</td><td>" ++
    formatRat2 r.total_payment ++ "</td></tr>"

/-- The HTML body of the success email (markup abbreviated to its dynamic
content): the run date `ds` and the embedded per-project results table. -/
def buildHtml (ds : String) (rows : List DBRow) : String :=
  "<h2>Анализ ФОТ по проектам</h2><li><strong>Дата выполнения:</strong> " ++
    ds ++ "</li><table>" ++
    "<tr><th>project_id</th><th>total_hours</th><th>total_payment</th></tr>" ++
    concatMap htmlRow rows ++ "</table>"

/-- Body text of the fallback email up to the interpolated error. -/
def fallbackBodyPre (ds : String) : String :=
  "<h3>Анализ ФОТ по проектам завершен успешно!</h3><p>Дата выполнения: " ++
    ds ++ "</p><p>Все задачи выполнены без ошибок.</p>" ++
    "<p><strong>Примечание:</strong> " ++
    "Файлы результатов не удалось прикрепить из-за ошибки: "

/-- Body text of the fallback email after the interpolated error. -/
def fallbackBodyPost : String :=
  "</p><p>Результаты доступны в логах задачи generate_report.</p>"

/-- Body of the degraded fallback email: explains the failure by
interpolating the original error text. -/
def fallbackBody (ds : String) (e : String) : String :=
  fallbackBodyPre ds ++ e ++ fallbackBodyPost

/-- Error message raised by `for row in result_data:` when the pulled xcom is
absent (None). -/
def noneIterError : String := "TypeError: NoneType object is not iterable"

/-- The environment the Notifier runs in: the two xcoms pulled from
`generate_report`, the run date `ds`, whether each fixed-path attachment
file exists, and the outcome of the transport call that sends the primary
email. -/
structure NotifyEnv where
  report : Option String
  result_data : Option (List DBRow)
  ds : String
  reportFileExists : Bool
  csvFileExists : Bool
  primarySend : Except String Unit
deriving Repr

/-- The attachment list: each fixed path is appended only after an
`os.path.exists` check, so a missing file is silently omitted. -/
def attachmentFiles (env : NotifyEnv) : List String :=
  (if env.reportFileExists then [reportFilePath] else []) ++
    (if env.csvFileExists then [csvFilePath] else [])

/-- The Notifier `send_email_with_attachments`: composes the HTML summary
(iterating `result_data`, which raises when the xcom is absent), collects
the attachments that exist, and sends the primary email; on any failure in
that try-block the except-branch sends a plain fallback email without
attachments whose body interpolates the error, then re-raises. Returns the
emails actually handed to the transport together with the step outcome.
(The fallback transport call itself is modelled as succeeding, as the code
calls it unguarded.) -/
def send_email_with_attachments (env : NotifyEnv) :
    List Email × Except String Unit :=
  match env.result_data with
  | none =>
    ([⟨recipients, fallbackSubject, fallbackBody env.ds noneIterError, []⟩],
      .error noneIterError)
  | some rows =>
    match env.primarySend with
    | .ok _ =>
      ([⟨recipients, successSubject, buildHtml env.ds rows,
        attachmentFiles env⟩], .ok ())
    | .error e =>
      ([⟨recipients, fallbackSubject, fallbackBody env.ds e, []⟩], .error e)

/-- C8: whenever composing or sending the primary email fails (absent
`result_data` xcom, or a transport/attachment error), the Notifier sends
exactly one plain fallback email — fallback subject, no attachments, body
interpolating the original error text — and the step still ends in that
same error, never in success. -/
theorem claim_C8 :
    ∀ env : NotifyEnv,
      (env.result_data = none ∨ (∃ e, env.primarySend = .error e)) →
      ∃ e : String,
        (send_email_with_attachments env).1 =
          [⟨recipients, fallbackSubject,
            fallbackBodyPre env.ds ++ e ++ fallbackBodyPost, []⟩] ∧
        (send_email_with_attachments env).2 = .error e := by
  intro env h
  rcases hrd : env.result_data with _ | rows
  · exact ⟨noneIterError, by simp [send_email_with_attachments, hrd, fallbackBody], by simp [send_email_with_attachments, hrd]⟩
  · rcases h with h | ⟨e, he⟩
    · rw [hrd] at h
      exact Option.noConfusion h
    · exact ⟨e, by simp [send_email_with_attachments, hrd, he, fallbackBody], by simp [send_email_with_attachments, hrd, he]⟩

/-- Witness for C8: an environment whose transport call fails. -/
theorem claim_C8_witness :
    ∃ e : String,
      (send_email_with_attachments
          ⟨some "r", some [], "2025-01-01", true, true, .error "smtp down"⟩).1 =
        [⟨recipients, fallbackSubject,
          fallbackBodyPre "2025-01-01" ++ e ++ fallbackBodyPost, []⟩] ∧
      (send_email_with_attachments
          ⟨some "r", some [], "2025-01-01", true, true, .error "smtp down"⟩).2 =
        .error e :=
  claim_C8 ⟨some "r", some [], "2025-01-01", true, true, .error "smtp down"⟩
    (Or.inr ⟨"smtp down", rfl⟩)

/-- C10: when the staged row data is present and the transport succeeds, the
Notifier sends the single normal success email whose attachment list
contains exactly the files that exist — possibly none — and the step
succeeds; missing attachment files alone never divert to the fallback or
fail the step. -/
theorem claim_C10 :
    ∀ (env : NotifyEnv) (rows : List DBRow),
      env.result_data = some rows →
      env.primarySend = .ok () →
      send_email_with_attachments env =
        ([⟨recipients, successSubject, buildHtml env.ds rows,
          (if env.reportFileExists then [reportFilePath] else []) ++
            (if env.csvFileExists then [csvFilePath] else [])⟩], .ok ()) := by
  intro env rows hrd hok
  simp [send_email_with_attachments, hrd, hok, attachmentFiles]

/-- Witness for C10: both attachment files missing still yields the normal
success email, with zero attachments. -/
theorem claim_C10_witness :
    send_email_with_attachments
        ⟨some "r", some [], "2025-01-01", false, false, .ok ()⟩ =
      ([⟨recipients, successSubject, buildHtml "2025-01-01" [], []⟩],
        .ok ()) :=
  claim_C10 ⟨some "r", some [], "2025-01-01", false, false, .ok ()⟩ [] rfl rfl
